import Mathlib

/-
Verification of the AuraPilot frontend (verdant-ai-chat) and of the
spec-described RAG backend boundaries.  Definitions are shallow embeddings of
the TypeScript source under src/; backend components absent from src/
(chunker, vector index, ingestion lifecycle) are modelled from the spec and
marked as such in their doc comments.
-/

namespace AuraPilot

/-- Minimal JSON-like value type used to model axios request bodies. -/
inductive JVal where
  | str (s : String)
  | num (q : ℚ)
  | bool (b : Bool)
deriving DecidableEq

/-- Body of the POST to /chat/query built by chatAPI.query
(src/unnamed/part_003 lines 169-170): the object literal
with fields query, temperature, include_sources. -/
def chatQueryBody (query : String) (temperature : ℚ) (includeSources : Bool) :
    List (String × JVal) :=
  [("query", JVal.str query),
   ("temperature", JVal.num temperature),
   ("include_sources", JVal.bool includeSources)]

/-- Request body sent by the ChatInterface send handler: it calls
chatAPI.query(userMessage, 0.7, true) (ChatInterface.tsx line 43). -/
def frontendQueryBody (userMessage : String) : List (String × JVal) :=
  chatQueryBody userMessage (7 / 10) true

/-- Name of the response field the frontend displays as the assistant
answer: ChatInterface.tsx line 46 reads data.response. -/
def answerFieldRead : String := "response"

/-- Name of the response field the frontend reads for source attribution:
ChatInterface.tsx line 47 reads data.sources. -/
def sourcesFieldRead : String := "sources"

/-- Role of a chat message (ChatInterface.tsx lines 8-12). -/
inductive ChatRole where
  | user
  | assistant
deriving DecidableEq

/-- Source attribution entry as typed by the frontend
(ChatInterface.tsx line 11). -/
structure SourceRef where
  file_name : String
  content : String
deriving DecidableEq

/-- Chat message as typed by the frontend (ChatInterface.tsx lines 8-12). -/
structure ChatMessage where
  role : ChatRole
  content : String
  sources : Option (List SourceRef)
deriving DecidableEq

/-- Success payload of the chat query response, with the two fields the
frontend reads (data.response and data.sources, ChatInterface.tsx 46-47). -/
structure QueryResponseData where
  response : String
  sources : Option (List SourceRef)
deriving DecidableEq

/-- Outcome of the awaited chatAPI.query promise: resolution with data or
rejection (the catch branch of ChatInterface.tsx lines 49-54). -/
inductive ApiOutcome where
  | ok (data : QueryResponseData)
  | err
deriving DecidableEq

/-- Component state touched by the ChatInterface send handler: the messages
list, the input field and the loading flag (ChatInterface.tsx 19-21). -/
structure ChatState where
  messages : List ChatMessage
  input : String
  loading : Bool
deriving DecidableEq

/-- Executable model of the JS String.prototype.trim call used on the chat
input (ChatInterface.tsx lines 35, 37): strip leading and trailing
whitespace. -/
def jsTrim (s : String) : String :=
  String.mk (((s.data.dropWhile Char.isWhitespace).reverse.dropWhile
    Char.isWhitespace).reverse)

/-- Fixed failure text appended by the catch branch of handleSendMessage
(ChatInterface.tsx line 53). -/
def failureText : String :=
  "Sorry, there was an error processing your message. Please try again."

/-- Net state transition of handleSendMessage (ChatInterface.tsx 33-58),
parameterized by the api as a function of the three arguments the handler
passes to chatAPI.query.  Returns the final component state and whether a
network request was issued.  The guard mirrors
if (!input.trim() || loading) return; the success branch appends the
assistant message built from data.response / data.sources, the catch branch
appends the fixed failure message, and the finally branch resets loading. -/
def handleSendMessage (st : ChatState) (api : String → ℚ → Bool → ApiOutcome) :
    ChatState × Bool :=
  if (jsTrim st.input == "") || st.loading then (st, false)
  else
    let userMessage := jsTrim st.input
    let st1 : ChatState :=
      { messages := st.messages ++ [⟨ChatRole.user, userMessage, none⟩],
        input := "", loading := true }
    match api userMessage (7 / 10) true with
    | ApiOutcome.ok data =>
        ({ st1 with
            messages := st1.messages ++ [⟨ChatRole.assistant, data.response, data.sources⟩],
            loading := false }, true)
    | ApiOutcome.err =>
        ({ st1 with
            messages := st1.messages ++ [⟨ChatRole.assistant, failureText, none⟩],
            loading := false }, true)

/-- Document processing status as declared by the verdant-ai-chat frontend
(Documents.tsx line 15): pending | processing | completed | failed. -/
inductive ProcessingStatus where
  | pending
  | processing
  | completed
  | failed
deriving DecidableEq

/-- String value of each member of the processing_status union type
(Documents.tsx line 15). -/
def processingStatusStr : ProcessingStatus → String
  | ProcessingStatus.pending => "pending"
  | ProcessingStatus.processing => "processing"
  | ProcessingStatus.completed => "completed"
  | ProcessingStatus.failed => "failed"

/-- Document status as declared by the build-guide frontend
(src/unnamed/part_000 line 709): processing | indexed | failed. -/
inductive GuideDocStatus where
  | processing
  | indexed
  | failed
deriving DecidableEq

/-- String value of each member of the build-guide status union type
(src/unnamed/part_000 line 709). -/
def guideDocStatusStr : GuideDocStatus → String
  | GuideDocStatus.processing => "processing"
  | GuideDocStatus.indexed => "indexed"
  | GuideDocStatus.failed => "failed"

/-- Status values named by the spec data model (spec section 3). -/
def specStatusValues : List String :=
  ["pending", "processing", "indexed", "failed"]

/-- Condition under which the Documents page renders the reindex button
(Documents.tsx line 221): doc.processing_status === "failed". -/
def showReindexButton (status : String) : Bool :=
  status == "failed"

/-- Document lifecycle status of the spec data model (spec section 3):
pending, processing, indexed, failed. -/
inductive DocStatus where
  | pending
  | processing
  | indexed
  | failed
deriving DecidableEq

/-- Modelled from the spec: the Reindex boundary (spec section 6) is backend
code absent from src/; it requires the current status to be failed or
indexed before re-invoking the Ingestion Orchestrator. -/
def reindexAllowed (s : DocStatus) : Bool :=
  s == DocStatus.failed || s == DocStatus.indexed

/-- User record as typed by the auth store (store.ts lines 4-11). -/
structure AuthUser where
  id : Nat
  email : String
  username : String
  full_name : String
  is_active : Bool
  created_at : String
deriving DecidableEq

/-- Zustand auth store state (store.ts lines 13-17). -/
structure AuthState where
  user : Option AuthUser
  token : Option String
  isLoading : Bool
  error : Option String
deriving DecidableEq

/-- Outcome of the awaited authAPI.login promise: resolution carrying
access_token and optionally a user object, or rejection carrying the
optional err.response.data.detail string (store.ts lines 35-46). -/
inductive LoginOutcome where
  | ok (access_token : String) (user : Option AuthUser)
  | err (detail : Option String)
deriving DecidableEq

/-- Outcome of the awaited authAPI.getMe promise (store.ts lines 42, 78). -/
inductive GetMeOutcome where
  | ok (user : AuthUser)
  | err (detail : Option String)
deriving DecidableEq

/-- Net transition of the login action (store.ts lines 32-49) on the store
state and the persisted localStorage access_token, parameterized by the
outcomes of the two awaited calls.  Returns the final store state, the final
localStorage content, and whether the action rethrew the error. -/
def loginAction (st : AuthState) (stored : Option String)
    (loginRes : LoginOutcome) (getMeRes : GetMeOutcome) :
    AuthState × Option String × Bool :=
  let st1 : AuthState := { st with isLoading := true, error := none }
  match loginRes with
  | LoginOutcome.err detail =>
      ({ st1 with error := some (detail.getD "Login failed"), isLoading := false },
       stored, true)
  | LoginOutcome.ok tok u =>
      let st2 : AuthState := { st1 with token := some tok }
      match u with
      | some usr => ({ st2 with user := some usr, isLoading := false }, some tok, false)
      | none =>
          match getMeRes with
          | GetMeOutcome.ok usr =>
              ({ st2 with user := some usr, isLoading := false }, some tok, false)
          | GetMeOutcome.err detail =>
              ({ st2 with error := some (detail.getD "Login failed"), isLoading := false },
               some tok, true)

/-- Net transition of the checkAuth action (store.ts lines 73-84) on the
store state and the persisted localStorage access_token: no stored token
means an early return; a successful getMe sets user and token; a failed
getMe removes the stored token and clears user and token. -/
def checkAuthAction (st : AuthState) (stored : Option String)
    (getMeRes : GetMeOutcome) : AuthState × Option String :=
  match stored with
  | none => (st, stored)
  | some tok =>
      match getMeRes with
      | GetMeOutcome.ok usr => ({ st with user := some usr, token := some tok }, stored)
      | GetMeOutcome.err _ => ({ st with user := none, token := none }, none)

/-- Document record fields constrained by the spec data-model invariant
(spec section 3). -/
structure DocRecord where
  status : DocStatus
  chunk_count : Nat
  error_message : Option String
deriving DecidableEq

/-- Data-model invariant of spec section 3: positive chunk_count forces
status indexed, and error_message is present exactly when status is failed. -/
def docInvariant (d : DocRecord) : Prop :=
  (0 < d.chunk_count → d.status = DocStatus.indexed) ∧
  (d.error_message.isSome = true ↔ d.status = DocStatus.failed)

/-- Modelled from the spec: the Ingestion Orchestrator (spec sections 3
and 4.4) is backend code absent from src/.  Transitions of one document
record: step 1 marks a pending document processing; step 5 on success sets
status indexed with the chunk count and clears error_message; step 5 on
failure sets status failed with chunk_count 0 and a message; a reindex
resets a failed or indexed document to pending. -/
inductive IngestStep : DocRecord → DocRecord → Prop where
  | markProcessing (d : DocRecord) :
      d.status = DocStatus.pending →
      IngestStep d ⟨DocStatus.processing, 0, none⟩
  | finishIndexed (d : DocRecord) (n : Nat) :
      d.status = DocStatus.processing →
      IngestStep d ⟨DocStatus.indexed, n, none⟩
  | finishFailed (d : DocRecord) (msg : String) :
      d.status = DocStatus.processing →
      IngestStep d ⟨DocStatus.failed, 0, some msg⟩
  | resubmit (d : DocRecord) :
      d.status = DocStatus.failed ∨ d.status = DocStatus.indexed →
      IngestStep d ⟨DocStatus.pending, 0, none⟩

/-- Document records observable by a client: created pending with zero
chunks and no error (spec section 6, upload boundary), then driven only by
Ingestion Orchestrator steps. -/
inductive ReachableDoc : DocRecord → Prop where
  | created : ReachableDoc ⟨DocStatus.pending, 0, none⟩
  | step (d d' : DocRecord) : ReachableDoc d → IngestStep d d' → ReachableDoc d'

/-- Vector-index match as returned by the similarity query: id, score and
the chunk metadata (spec sections 3 and 4.3). -/
structure VecMatch where
  vector_id : String
  score : ℚ
  document_id : Nat
  filename : String
  chunk_text : String
deriving DecidableEq

/-- Insertion of a match into a list kept in descending score order. -/
def insertByScore (r : VecMatch) : List VecMatch → List VecMatch
  | [] => [r]
  | x :: xs =>
      if x.score ≤ r.score then r :: x :: xs else x :: insertByScore r xs

/-- Insertion sort of matches into descending score order. -/
def sortByScoreDesc : List VecMatch → List VecMatch
  | [] => []
  | x :: xs => insertByScore x (sortByScoreDesc xs)

/-- Modelled from the spec: the Vector Index query (spec section 4.3) is
backend code absent from src/.  Among the stored records of the namespace it
excludes entries below min_score, sorts by descending similarity score and
returns at most top_k entries, never padding. -/
def vectorIndexQuery (records : List VecMatch) (top_k : Nat) (min_score : ℚ) :
    List VecMatch :=
  (sortByScoreDesc (records.filter (fun r => min_score ≤ r.score))).take top_k

/-- Sliding-window chunk extraction with the advance step encoded as
step1 + 1 characters, recursing structurally on a fuel bound so that the
kernel can evaluate it.  Each round takes a window of size characters and
advances by step1 + 1. -/
def splitGo (size step1 : Nat) : Nat → List Char → List (List Char)
  | _, [] => []
  | 0, _ :: _ => []
  | fuel + 1, c :: cs => (c :: cs).take size :: splitGo size step1 fuel (cs.drop step1)

/-- Modelled from the spec: the Chunker (spec section 4.1) is backend code
absent from src/ (only its configuration RAG_CHUNK_SIZE / RAG_CHUNK_OVERLAP
appears, src/unnamed/part_002 lines 139-140).  split slides a window of
size characters across the text, advancing by size - overlap each step; the
final chunk may be shorter; empty input yields zero chunks. -/
def split (text : List Char) (size overlap : Nat) : List (List Char) :=
  splitGo size (size - overlap - 1) text.length text

/-- Chunk of one document: 0-based ordinal position and text (spec
section 3). -/
structure Chunk where
  position : Nat
  text : List Char
deriving DecidableEq

/-- Chunks of a document, each tagged with its ordinal position in reading
order (spec sections 3 and 4.1). -/
def chunksOf (text : List Char) (size overlap : Nat) : List Chunk :=
  (split text size overlap).enum.map (fun p => ⟨p.1, p.2⟩)

/-- Concatenation of chunk texts minus the overlaps: the first chunk whole,
every later chunk with its first overlap characters dropped. -/
def reconstruct (overlap : Nat) : List (List Char) → List Char
  | [] => []
  | c :: cs => c ++ (cs.map (List.drop overlap)).flatten

/-- Fuel irrelevance: any fuel bound at least the text length gives the same
chunk list. -/
theorem splitGo_fuel_eq (size step1 : Nat) :
    ∀ (fuel fuel' : Nat) (text : List Char), text.length ≤ fuel → text.length ≤ fuel' →
      splitGo size step1 fuel text = splitGo size step1 fuel' text := by
  intro fuel
  induction fuel with
  | zero =>
      intro fuel' text h h'
      cases text with
      | nil => cases fuel' <;> rfl
      | cons c cs => simp at h
  | succ f ih =>
      intro fuel' text h h'
      cases text with
      | nil => cases fuel' <;> rfl
      | cons c cs =>
          cases fuel' with
          | zero => simp at h'
          | succ f' =>
              simp only [splitGo]
              have h1 : (cs.drop step1).length ≤ f := by
                simp only [List.length_cons] at h
                simp only [List.length_drop]
                omega
              have h2 : (cs.drop step1).length ≤ f' := by
                simp only [List.length_cons] at h'
                simp only [List.length_drop]
                omega
              rw [ih f' (cs.drop step1) h1 h2]

/-- Unfolding equation of split on a nonempty text: a window of size
characters followed by the split of the text advanced by size - overlap. -/
theorem split_cons (c : Char) (cs : List Char) (size overlap : Nat) :
    split (c :: cs) size overlap =
      (c :: cs).take size :: split (cs.drop (size - overlap - 1)) size overlap := by
  show splitGo size (size - overlap - 1) (cs.length + 1) (c :: cs) = _
  simp only [splitGo]
  congr 1
  exact splitGo_fuel_eq size (size - overlap - 1) cs.length
    (cs.drop (size - overlap - 1)).length (cs.drop (size - overlap - 1))
    (by simp only [List.length_drop]; omega) (le_refl _)

/-- Dropping the leading overlap of every chunk and concatenating yields the
text with its first overlap characters removed. -/
theorem split_drop_flatten (size overlap : Nat) (hov : overlap < size) :
    ∀ text : List Char,
      ((split text size overlap).map (List.drop overlap)).flatten = text.drop overlap
  | [] => by
      simp only [split, List.length_nil, splitGo, List.map_nil, List.flatten_nil,
        List.drop_nil]
  | c :: cs => by
      rw [split_cons]
      have ih := split_drop_flatten size overlap hov (cs.drop (size - overlap - 1))
      simp only [List.map_cons, List.flatten_cons, ih]
      rw [List.drop_take]
      have h1 : (cs.drop (size - overlap - 1)).drop overlap = cs.drop (size - 1) := by
        rw [List.drop_drop]
        congr 1
        omega
      have h2 : ((c :: cs).drop overlap).drop (size - overlap) = cs.drop (size - 1) := by
        rw [List.drop_drop]
        have hsz : overlap + (size - overlap) = size := by omega
        rw [hsz]
        have hsz2 : size = (size - 1) + 1 := by omega
        rw [hsz2, List.drop_succ_cons]
        congr 1
      rw [h1, ← h2]
      exact List.take_append_drop _ _
termination_by text => text.length
decreasing_by simp only [List.length_drop, List.length_cons]; omega

/-- Concatenating the chunk texts minus the overlaps reconstructs the
original text, for every valid configuration. -/
theorem reconstruct_split (size overlap : Nat) (hov : overlap < size) :
    ∀ text : List Char, reconstruct overlap (split text size overlap) = text
  | [] => by
      simp only [split, List.length_nil, splitGo, reconstruct]
  | c :: cs => by
      rw [split_cons]
      simp only [reconstruct]
      rw [split_drop_flatten size overlap hov]
      have h1 : (cs.drop (size - overlap - 1)).drop overlap = (c :: cs).drop size := by
        rw [List.drop_drop]
        have hsz2 : size = (size - 1) + 1 := by omega
        rw [hsz2, List.drop_succ_cons]
        congr 1
        omega
      rw [h1]
      exact List.take_append_drop _ _

/-- Chunk positions of a document form the contiguous 0-based sequence. -/
theorem chunk_positions (text : List Char) (size overlap : Nat) :
    (chunksOf text size overlap).map Chunk.position =
      List.range (chunksOf text size overlap).length := by
  simp [chunksOf, List.map_map, Function.comp_def]

/-- Inserting into a score-descending list permutes consing. -/
theorem insertByScore_perm (r : VecMatch) (l : List VecMatch) :
    (insertByScore r l).Perm (r :: l) := by
  induction l with
  | nil => exact List.Perm.refl _
  | cons x xs ih =>
      simp only [insertByScore]
      by_cases h : x.score ≤ r.score
      · simp [h]
      · simp only [h, if_false]
        exact ((ih.cons x).trans (List.Perm.swap r x xs))

/-- Insertion sort by descending score is a permutation of its input. -/
theorem sortByScoreDesc_perm (l : List VecMatch) : (sortByScoreDesc l).Perm l := by
  induction l with
  | nil => exact List.Perm.refl _
  | cons x xs ih =>
      exact (insertByScore_perm x (sortByScoreDesc xs)).trans (ih.cons x)

/-- Insertion preserves the descending-score ordering. -/
theorem insertByScore_pairwise (r : VecMatch) (l : List VecMatch)
    (hl : l.Pairwise (fun a b => b.score ≤ a.score)) :
    (insertByScore r l).Pairwise (fun a b => b.score ≤ a.score) := by
  induction l with
  | nil => simp [insertByScore]
  | cons x xs ih =>
      simp only [insertByScore]
      rcases List.pairwise_cons.mp hl with ⟨hx, hxs⟩
      by_cases h : x.score ≤ r.score
      · simp only [h, if_true]
        refine List.pairwise_cons.mpr ⟨?_, hl⟩
        intro y hy
        rcases List.mem_cons.mp hy with rfl | hy2
        · exact h
        · exact le_trans (hx y hy2) h
      · simp only [h, if_false]
        refine List.pairwise_cons.mpr ⟨?_, ih hxs⟩
        intro y hy
        have hy3 := (insertByScore_perm r xs).mem_iff.mp hy
        rcases List.mem_cons.mp hy3 with rfl | hy4
        · exact le_of_not_le h
        · exact hx y hy4

/-- Insertion sort by descending score produces a descending list. -/
theorem sortByScoreDesc_pairwise (l : List VecMatch) :
    (sortByScoreDesc l).Pairwise (fun a b => b.score ≤ a.score) := by
  induction l with
  | nil => simp [sortByScoreDesc]
  | cons x xs ih => exact insertByScore_pairwise x (sortByScoreDesc xs) ih

/-- C1 counterexample: the field name the frontend reads the displayed
answer text from is response (ChatInterface.tsx line 46), not the
answer_text field name the claim states for the query boundary. -/
theorem chat_answer_field_not_answer_text : ¬ (answerFieldRead = "answer_text") := by
  decide

/-- C1 (amended): the chat request body sent by the frontend contains
exactly the fields query, temperature and include_sources, and the answer
text the frontend displays is read from the response field of the returned
object (together with the sources array), as shown by the assistant message
the send handler appends on success. -/
theorem chat_query_boundary_fields (m : String) (st : ChatState)
    (api : String → ℚ → Bool → ApiOutcome) (data : QueryResponseData)
    (hin : (jsTrim st.input == "") = false) (hload : st.loading = false)
    (hok : api (jsTrim st.input) (7 / 10) true = ApiOutcome.ok data) :
    (frontendQueryBody m).map Prod.fst = ["query", "temperature", "include_sources"]
    ∧ answerFieldRead = "response"
    ∧ sourcesFieldRead = "sources"
    ∧ (handleSendMessage st api).1.messages =
        st.messages ++ [⟨ChatRole.user, jsTrim st.input, none⟩,
          ⟨ChatRole.assistant, data.response, data.sources⟩] := by
  refine ⟨rfl, rfl, rfl, ?_⟩
  simp [handleSendMessage, hin, hload, hok]

/-- C1 witness: the behavior at a concrete state and a resolving api call. -/
theorem chat_query_boundary_fields_witness :
    (handleSendMessage ⟨[], "hi", false⟩ (fun _ _ _ => ApiOutcome.ok ⟨"ans", none⟩)).1.messages
      = [] ++ [⟨ChatRole.user, jsTrim "hi", none⟩, ⟨ChatRole.assistant, "ans", none⟩] :=
  (chat_query_boundary_fields "q" ⟨[], "hi", false⟩
    (fun _ _ _ => ApiOutcome.ok ⟨"ans", none⟩) ⟨"ans", none⟩ (by decide) rfl rfl).2.2.2

/-- C2 counterexample: the verdant-ai-chat frontend document type admits
the status value completed (Documents.tsx line 15), which is outside the
claimed set pending, processing, indexed, failed. -/
theorem verdant_status_completed_outside_claimed_set :
    processingStatusStr ProcessingStatus.completed ∉ specStatusValues := by
  decide

/-- C2 (amended): every status value observable through the frontend
document types lies in pending, processing, completed, failed for the
verdant-ai-chat frontend (completed is its terminal success value instead
of indexed), and in processing, indexed, failed for the build-guide
frontend. -/
theorem document_status_values :
    (∀ s : ProcessingStatus,
        processingStatusStr s ∈ ["pending", "processing", "completed", "failed"])
    ∧ (∀ g : GuideDocStatus, guideDocStatusStr g ∈ ["processing", "indexed", "failed"]) := by
  constructor
  · intro s
    cases s <;> simp [processingStatusStr]
  · intro g
    cases g <;> simp [guideDocStatusStr]

/-- C3: when the query api call rejects, the send handler appends an
assistant message carrying the fixed failure text after the preserved user
message, and resets the loading flag, instead of propagating the error. -/
theorem generation_failure_degraded (st : ChatState)
    (api : String → ℚ → Bool → ApiOutcome)
    (hin : (jsTrim st.input == "") = false) (hload : st.loading = false)
    (herr : api (jsTrim st.input) (7 / 10) true = ApiOutcome.err) :
    (handleSendMessage st api).1.messages =
        st.messages ++ [⟨ChatRole.user, jsTrim st.input, none⟩,
          ⟨ChatRole.assistant, failureText, none⟩]
    ∧ (handleSendMessage st api).1.loading = false := by
  constructor
  · simp [handleSendMessage, hin, hload, herr]
  · simp [handleSendMessage, hin, hload, herr]

/-- C3 witness: the behavior at a concrete state and a rejecting api call. -/
theorem generation_failure_degraded_witness :
    (handleSendMessage ⟨[], "hi", false⟩ (fun _ _ _ => ApiOutcome.err)).1.messages
        = [] ++ [⟨ChatRole.user, jsTrim "hi", none⟩, ⟨ChatRole.assistant, failureText, none⟩]
    ∧ (handleSendMessage ⟨[], "hi", false⟩ (fun _ _ _ => ApiOutcome.err)).1.loading = false :=
  generation_failure_degraded ⟨[], "hi", false⟩ (fun _ _ _ => ApiOutcome.err)
    (by decide) rfl rfl

/-- C4 counterexample: the Documents page does not offer the reindex action
for a document whose status is indexed; the button renders only when
processing_status is failed (Documents.tsx line 221). -/
theorem reindex_not_offered_for_indexed :
    ¬ (∀ s : String, showReindexButton s = true ↔ (s = "failed" ∨ s = "indexed")) := by
  intro h
  exact absurd ((h "indexed").mpr (Or.inr rfl)) (by decide)

/-- C4 (amended): the client offers the reindex action exactly for
documents whose processing_status is failed, while the reindex boundary
modelled from the spec requires status failed or indexed. -/
theorem reindex_action_condition :
    (∀ s : String, showReindexButton s = true ↔ s = "failed")
    ∧ (∀ s : DocStatus,
        reindexAllowed s = true ↔ (s = DocStatus.failed ∨ s = DocStatus.indexed)) := by
  constructor
  · intro s
    simp [showReindexButton]
  · intro s
    cases s <;> simp [reindexAllowed]

set_option maxRecDepth 10000 in
/-- C5: chunking is deterministic, chunk positions form a contiguous
0-based sequence, concatenating the chunk texts minus the overlaps
reconstructs the original text, and a 1200-character text with chunk_size
512 and overlap 50 yields exactly 3 chunks with positions 0, 1, 2. -/
theorem chunker_contract (text : List Char) (size overlap : Nat)
    (hov : overlap < size) :
    (∀ t2 : List Char, t2 = text → split t2 size overlap = split text size overlap)
    ∧ (chunksOf text size overlap).map Chunk.position =
        List.range (chunksOf text size overlap).length
    ∧ reconstruct overlap (split text size overlap) = text
    ∧ (split (List.replicate 1200 'a') 512 50).length = 3
    ∧ (chunksOf (List.replicate 1200 'a') 512 50).map Chunk.position = [0, 1, 2] := by
  refine ⟨fun t2 ht => by rw [ht], chunk_positions text size overlap,
    reconstruct_split size overlap hov text, by decide, by decide⟩

/-- C5 witness: the contract instantiated at the 1200-character scenario. -/
theorem chunker_contract_witness :
    50 < 512 ∧
      reconstruct 50 (split (List.replicate 1200 'a') 512 50) = List.replicate 1200 'a' :=
  ⟨by decide, (chunker_contract (List.replicate 1200 'a') 512 50 (by decide)).2.2.1⟩

/-- C6: the retrieved sources are at most top_k, every score is at least
min_score, the sequence is sorted by descending relevance score, and its
length is exactly the smaller of top_k and the number of records meeting
the threshold, so it is never padded. -/
theorem retrieval_contract (records : List VecMatch) (top_k : Nat) (min_score : ℚ) :
    (vectorIndexQuery records top_k min_score).length ≤ top_k
    ∧ (∀ r ∈ vectorIndexQuery records top_k min_score, min_score ≤ r.score)
    ∧ (vectorIndexQuery records top_k min_score).Pairwise (fun a b => b.score ≤ a.score)
    ∧ (vectorIndexQuery records top_k min_score).length =
        min top_k (records.filter (fun r => min_score ≤ r.score)).length := by
  refine ⟨?_, ?_, ?_, ?_⟩
  · simp [vectorIndexQuery, List.length_take]
  · intro r hr
    have hr2 : r ∈ sortByScoreDesc (records.filter (fun r => min_score ≤ r.score)) :=
      List.Sublist.mem hr (List.take_sublist _ _)
    have hr3 : r ∈ records.filter (fun r => min_score ≤ r.score) :=
      (sortByScoreDesc_perm _).mem_iff.mp hr2
    exact of_decide_eq_true (List.mem_filter.mp hr3).2
  · exact List.Pairwise.sublist (List.take_sublist _ _) (sortByScoreDesc_pairwise _)
  · simp [vectorIndexQuery, List.length_take, (sortByScoreDesc_perm _).length_eq]

/-- C6 witness: the bound at a concrete two-record index. -/
theorem retrieval_contract_witness :
    (vectorIndexQuery [⟨"v1", 9 / 10, 1, "a.txt", "t1"⟩, ⟨"v2", 3 / 10, 1, "a.txt", "t2"⟩]
        1 (1 / 2)).length ≤ 1 :=
  (retrieval_contract [⟨"v1", 9 / 10, 1, "a.txt", "t1"⟩, ⟨"v2", 3 / 10, 1, "a.txt", "t2"⟩]
    1 (1 / 2)).1

/-- C7: every document record reachable through the ingestion lifecycle
satisfies the data-model invariant: positive chunk_count implies status
indexed, and error_message is present exactly when status is failed. -/
theorem document_invariant_reachable (d : DocRecord) (h : ReachableDoc d) :
    docInvariant d := by
  induction h with
  | created => simp [docInvariant]
  | step d d' hr hstep ih => cases hstep <;> simp [docInvariant]

/-- C7 witness: the invariant holds at the freshly created record. -/
theorem document_invariant_reachable_witness :
    docInvariant ⟨DocStatus.pending, 0, none⟩ :=
  document_invariant_reachable _ ReachableDoc.created

/-- C8: when the trimmed input is empty or a query is in flight, the send
handler leaves the whole component state unchanged and issues no request. -/
theorem send_guard_no_effect (st : ChatState) (api : String → ℚ → Bool → ApiOutcome)
    (h : (jsTrim st.input == "") = true ∨ st.loading = true) :
    handleSendMessage st api = (st, false) := by
  unfold handleSendMessage
  rcases h with h | h <;> simp [h]

/-- C8 witness: the guard at a concrete empty-input state. -/
theorem send_guard_no_effect_witness :
    handleSendMessage ⟨[], "", false⟩ (fun _ _ _ => ApiOutcome.err) = (⟨[], "", false⟩, false) :=
  send_guard_no_effect ⟨[], "", false⟩ (fun _ _ _ => ApiOutcome.err) (Or.inl (by decide))

/-- C9: when the login api call rejects, the login action leaves the user
and token fields and the persisted access_token unchanged, sets the error
message and clears isLoading, and rethrows. -/
theorem login_rejection_state (st : AuthState) (stored : Option String)
    (detail : Option String) (getMeRes : GetMeOutcome) :
    (loginAction st stored (LoginOutcome.err detail) getMeRes).1.user = st.user
    ∧ (loginAction st stored (LoginOutcome.err detail) getMeRes).1.token = st.token
    ∧ (loginAction st stored (LoginOutcome.err detail) getMeRes).2.1 = stored
    ∧ (loginAction st stored (LoginOutcome.err detail) getMeRes).1.error =
        some (detail.getD "Login failed")
    ∧ (loginAction st stored (LoginOutcome.err detail) getMeRes).1.isLoading = false
    ∧ (loginAction st stored (LoginOutcome.err detail) getMeRes).2.2 = true :=
  ⟨rfl, rfl, rfl, rfl, rfl, rfl⟩

/-- C10: checkAuth returns without modification when no token is stored,
sets user and token when validation succeeds, and on validation failure
removes the stored token and clears user and token. -/
theorem checkAuth_consistency (st : AuthState) (stored : Option String)
    (getMeRes : GetMeOutcome) :
    (stored = none → checkAuthAction st stored getMeRes = (st, stored))
    ∧ (∀ tok usr, stored = some tok → getMeRes = GetMeOutcome.ok usr →
        checkAuthAction st stored getMeRes =
          ({ st with user := some usr, token := some tok }, stored))
    ∧ (∀ tok detail, stored = some tok → getMeRes = GetMeOutcome.err detail →
        (checkAuthAction st stored getMeRes).1.user = none
        ∧ (checkAuthAction st stored getMeRes).1.token = none
        ∧ (checkAuthAction st stored getMeRes).2 = none) := by
  refine ⟨?_, ?_, ?_⟩
  · rintro rfl
    rfl
  · rintro tok usr rfl rfl
    rfl
  · rintro tok detail rfl rfl
    exact ⟨rfl, rfl, rfl⟩

/-- C10 witness: checkAuth at a concrete empty store with no stored token. -/
theorem checkAuth_consistency_witness :
    checkAuthAction ⟨none, none, false, none⟩ none (GetMeOutcome.err none) =
      (⟨none, none, false, none⟩, none) :=
  (checkAuth_consistency ⟨none, none, false, none⟩ none (GetMeOutcome.err none)).1 rfl

end AuraPilot
